import Mathlib

/-!
Verification of the multi-run statistical aggregation and reporting pipeline
of the sandbox benchmark script (`sandbox.ts`): `StatisticsCalculator`,
`BenchmarkRunner.runMultiple` / `calculateResult`, and the reporting helpers
of `printResults`.

Embedding conventions:
* JavaScript numbers holding durations, delays and rates are modelled as `ℚ`
  (exact arithmetic); the one use of `Math.sqrt` lands in `ℝ` via `Real.sqrt`.
* The async loop of `runMultiple` is modelled as a fuelled recursion; the two
  suspension points (awaiting the sample source, awaiting the inter-run
  delay) are recorded in an explicit event trace.
* A sample source invocation (`benchmarkFn()`) either returns a
  `SingleRunResult` or throws; we model it as `Nat → Outcome`, the argument
  being the 1-based run index of the invocation.  A thrown JavaScript value
  is represented by its textual description (the source stores
  `error.message` / `String(error)`).
* `timestamp: new Date()` is a wall-clock read; we model it by an external
  `clock : Nat → ℚ` giving the timestamp captured at run `i`.
* Console output (`console.log`, progress symbols) is a side effect on the
  output collaborator and is not part of any returned value; it is omitted.
-/

/-- `SingleRunResult` of the source: what the provider-specific sample
function returns when it returns normally. -/
structure SingleRunResult where
  sandboxCreationTime : ℚ
  fileCreationTime : ℚ
  totalTime : ℚ
  success : Bool
  error : Option String
deriving DecidableEq

/-- Result of one invocation of the sample source: either a normal return
of a `SingleRunResult`, or a thrown/rejected error carrying its textual
description. -/
inductive Outcome where
  | ok (s : SingleRunResult)
  | thrown (msg : String)
deriving DecidableEq

/-- A failing sample-source invocation in the sense of the spec: it either
throws/rejects, or returns normally with `success = false`. -/
def outcomeFails : Outcome → Bool
  | .ok s => !s.success
  | .thrown _ => true

/-- `BenchmarkRun` of the source: a sample augmented with its 1-based run
index and a capture timestamp. -/
structure BenchmarkRun where
  runNumber : Nat
  sandboxCreationTime : ℚ
  fileCreationTime : ℚ
  totalTime : ℚ
  success : Bool
  error : Option String
  timestamp : ℚ
deriving DecidableEq

/-- One `{sandboxCreationTime, fileCreationTime, totalTime}` record of
rational durations (used for averages, min and max). -/
structure DurationTriple where
  sandboxCreationTime : ℚ
  fileCreationTime : ℚ
  totalTime : ℚ
deriving DecidableEq

/-- The standard-deviation record: `Math.sqrt` is modelled in `ℝ`. -/
structure StdDevTriple where
  sandboxCreationTime : ℝ
  fileCreationTime : ℝ
  totalTime : ℝ

/-- `BenchmarkStatistics` of the source. -/
structure BenchmarkStatistics where
  standardDeviation : StdDevTriple
  min : DurationTriple
  max : DurationTriple

/-- `BenchmarkResult` of the source (the spec's AggregatedResult). -/
structure BenchmarkResult where
  name : String
  runs : List BenchmarkRun
  averages : DurationTriple
  statistics : BenchmarkStatistics
  successRate : ℚ
  totalRuns : Nat
  failedRuns : List BenchmarkRun

/-- `BenchmarkConfig` of the source.  `runCount` is an integer so that the
non-positive values reachable through `parseInt` are representable. -/
structure BenchmarkConfig where
  runCount : Int
  delayBetweenRuns : ℚ
  failFast : Bool
  verbose : Bool
  outlierDetection : Bool

namespace StatisticsCalculator

/-- `calculateMean`: `values.reduce((sum, val) => sum + val, 0) / values.length`,
with an explicit 0 for the empty list. -/
def calculateMean (values : List ℚ) : ℚ :=
  if values.length = 0 then 0
  else (values.foldl (fun sum val => sum + val) 0) / values.length

/-- `calculateStandardDeviation`: square root of the mean of squared
deviations from the mean; 0 for the empty list.  `Math.sqrt` is `Real.sqrt`. -/
noncomputable def calculateStandardDeviation (values : List ℚ) : ℝ :=
  if values.length = 0 then 0
  else
    let mean := calculateMean values
    let squaredDiffs := values.map (fun val => (val - mean) ^ 2)
    let variance := calculateMean squaredDiffs
    Real.sqrt variance

/-- `calculateMin`: `Math.min(...values)` for a non-empty list, else 0. -/
def calculateMin (values : List ℚ) : ℚ :=
  match values with
  | [] => 0
  | x :: xs => xs.foldl min x

/-- `calculateMax`: `Math.max(...values)` for a non-empty list, else 0. -/
def calculateMax (values : List ℚ) : ℚ :=
  match values with
  | [] => 0
  | x :: xs => xs.foldl max x

end StatisticsCalculator

/-- One observable suspension point of the runner loop: either awaiting the
external sample source for run `i`, or awaiting the explicit inter-run
delay of `ms` milliseconds. -/
inductive RunnerEvent where
  | sampleAwait (i : Nat)
  | delayAwait (ms : ℚ)
deriving DecidableEq

/-- The three sequences accumulated by the loop of `runMultiple`: the full
run sequence `runs`, the `failedRuns` subsequence, and the trace of
suspension events. -/
structure SweepAcc where
  runs : List BenchmarkRun
  failedRuns : List BenchmarkRun
  events : List RunnerEvent
deriving DecidableEq

/-- `runMultiple` returns the aggregated `BenchmarkResult`; the event trace
of the sweep is carried alongside to make the suspension behaviour
observable. -/
structure RunnerOutput where
  result : BenchmarkResult
  events : List RunnerEvent

namespace BenchmarkRunner

/-- The `BenchmarkRun` constructed at loop index `i`: the `try` branch wraps
the returned sample unchanged (regardless of its `success` flag); the
`catch` branch synthesizes a run with all durations zero, `success = false`
and the thrown error's description. -/
def runOfOutcome (i : Nat) (timestamp : ℚ) : Outcome → BenchmarkRun
  | .ok s =>
      ⟨i, s.sandboxCreationTime, s.fileCreationTime, s.totalTime, s.success, s.error, timestamp⟩
  | .thrown msg => ⟨i, 0, 0, 0, false, some msg, timestamp⟩

/-- The `for (let i = 1; i <= runCount; i++)` loop of `runMultiple`,
iterating from index `i` with `fuel` iterations remaining.  The `try`
branch appends the run, appends it to `failedRuns` when unsuccessful,
breaks when unsuccessful under `failFast`, and otherwise delays when
`i < runCount && delayBetweenRuns > 0`.  The `catch` branch appends the
synthesized run to both sequences, breaks under `failFast`, and performs
no delay. -/
def runFrom (runCount : Int) (delayBetweenRuns : ℚ) (failFast : Bool)
    (benchmarkFn : Nat → Outcome) (clock : Nat → ℚ) : Nat → Nat → SweepAcc
  | 0, _ => ⟨[], [], []⟩
  | fuel + 1, i =>
    match benchmarkFn i with
    | .ok s =>
      let run := runOfOutcome i (clock i) (.ok s)
      if !s.success && failFast then ⟨[run], [run], [.sampleAwait i]⟩
      else
        let rest := runFrom runCount delayBetweenRuns failFast benchmarkFn clock fuel (i + 1)
        let delayEvs : List RunnerEvent :=
          if (i : Int) < runCount ∧ 0 < delayBetweenRuns
          then [.delayAwait delayBetweenRuns] else []
        ⟨run :: rest.runs,
         if s.success then rest.failedRuns else run :: rest.failedRuns,
         .sampleAwait i :: (delayEvs ++ rest.events)⟩
    | .thrown msg =>
      let run := runOfOutcome i (clock i) (.thrown msg)
      if failFast then ⟨[run], [run], [.sampleAwait i]⟩
      else
        let rest := runFrom runCount delayBetweenRuns failFast benchmarkFn clock fuel (i + 1)
        ⟨run :: rest.runs, run :: rest.failedRuns, .sampleAwait i :: rest.events⟩

/-- `calculateResult` of the source: partition into successful runs; with
zero successes every derived field is the literal 0; otherwise averages and
statistics of the three duration dimensions over the successful subset and
`successRate = successfulRuns.length / runs.length`. -/
noncomputable def calculateResult (providerName : String)
    (runs failedRuns : List BenchmarkRun) : BenchmarkResult :=
  let successfulRuns := runs.filter (fun r => r.success)
  if successfulRuns.length = 0 then
    ⟨providerName, runs, ⟨0, 0, 0⟩, ⟨⟨0, 0, 0⟩, ⟨0, 0, 0⟩, ⟨0, 0, 0⟩⟩, 0,
      runs.length, failedRuns⟩
  else
    let sandboxTimes := successfulRuns.map (fun r => r.sandboxCreationTime)
    let fileTimes := successfulRuns.map (fun r => r.fileCreationTime)
    let totalTimes := successfulRuns.map (fun r => r.totalTime)
    ⟨providerName, runs,
      ⟨StatisticsCalculator.calculateMean sandboxTimes,
       StatisticsCalculator.calculateMean fileTimes,
       StatisticsCalculator.calculateMean totalTimes⟩,
      ⟨⟨StatisticsCalculator.calculateStandardDeviation sandboxTimes,
        StatisticsCalculator.calculateStandardDeviation fileTimes,
        StatisticsCalculator.calculateStandardDeviation totalTimes⟩,
       ⟨StatisticsCalculator.calculateMin sandboxTimes,
        StatisticsCalculator.calculateMin fileTimes,
        StatisticsCalculator.calculateMin totalTimes⟩,
       ⟨StatisticsCalculator.calculateMax sandboxTimes,
        StatisticsCalculator.calculateMax fileTimes,
        StatisticsCalculator.calculateMax totalTimes⟩⟩,
      (successfulRuns.length : ℚ) / (runs.length : ℚ),
      runs.length, failedRuns⟩

/-- `runMultiple`: run the loop from index 1 (the loop performs
`max(runCount, 0)` iterations unless `failFast` breaks early — for a
non-positive `runCount` the guard `1 <= runCount` fails immediately) and
fold the collected sequences through `calculateResult`.  Total by
construction: provider failures are captured as data, never raised. -/
noncomputable def runMultiple (config : BenchmarkConfig)
    (benchmarkFn : Nat → Outcome) (providerName : String)
    (clock : Nat → ℚ) : RunnerOutput :=
  let out := runFrom config.runCount config.delayBetweenRuns config.failFast
    benchmarkFn clock config.runCount.toNat 1
  ⟨calculateResult providerName out.runs out.failedRuns, out.events⟩

end BenchmarkRunner

/-- `toFixed(2)` of a rational: round to the nearest hundredth (ties away
from the value's floor, as `toFixed` picks the larger candidate) and render
with exactly two decimal digits. -/
def toFixed2 (q : ℚ) : String :=
  let n : Int := round (q * 100)
  let sign := if n < 0 then "-" else ""
  let m := n.natAbs
  let frac := m % 100
  let fracStr := if frac < 10 then "0" ++ toString frac else toString frac
  sign ++ toString (m / 100) ++ "." ++ fracStr

/-- `formatTime` of the source. -/
def formatTime (ms : ℚ) : String := toFixed2 ms ++ "ms"

/-- The "Avg Sandbox" cell of a report row: formatted average, or the
sentinel `"N/A"` when the success rate is zero. -/
def avgSandboxCell (result : BenchmarkResult) : String :=
  if result.successRate > 0 then formatTime result.averages.sandboxCreationTime else "N/A"

/-- The "Avg File" cell of a report row. -/
def avgFileCell (result : BenchmarkResult) : String :=
  if result.successRate > 0 then formatTime result.averages.fileCreationTime else "N/A"

/-- The "Avg Total" cell of a report row. -/
def avgTotalCell (result : BenchmarkResult) : String :=
  if result.successRate > 0 then formatTime result.averages.totalTime else "N/A"

/-- The "Std Dev" cell of a report row.  The standard deviation lives in
`ℝ`, whose decimal rendering is outside the embedding, so the formatter for
reals is taken as a parameter; the cell is `"N/A"` whenever the success
rate is zero, independent of the formatter. -/
def stdDevCell (fmtReal : ℝ → String) (result : BenchmarkResult) : String :=
  if result.successRate > 0
  then "±" ++ fmtReal result.statistics.standardDeviation.totalTime
  else "N/A"

/-- `results.filter((r) => r.successRate > 0)` — the providers admitted to
the narrative statistical summary. -/
def successfulResults (results : List BenchmarkResult) : List BenchmarkResult :=
  results.filter (fun r => r.successRate > 0)

/-- The `reduce` designating the "Fastest Average" provider:
`a.averages.totalTime < b.averages.totalTime ? a : b`, seeded with the
first element (`none` on an empty list, where the source's `reduce` would
throw — the source only calls it behind a `length > 1` guard). -/
def fastestOf (results : List BenchmarkResult) : Option BenchmarkResult :=
  match results with
  | [] => none
  | x :: xs =>
      some (xs.foldl (fun a b => if a.averages.totalTime < b.averages.totalTime then a else b) x)

/-- The `reduce` designating the "Most Consistent" provider, comparing the
standard deviations of total time. -/
noncomputable def mostConsistentOf (results : List BenchmarkResult) : Option BenchmarkResult :=
  match results with
  | [] => none
  | x :: xs =>
      some (xs.foldl
        (fun a b =>
          if a.statistics.standardDeviation.totalTime < b.statistics.standardDeviation.totalTime
          then a else b) x)

/-- Number of delay suspensions in a trace. -/
def countDelays (events : List RunnerEvent) : Nat :=
  events.countP (fun e => match e with | .delayAwait _ => true | _ => false)

/-! ### Helper lemmas -/

theorem calculateResult_runs (name : String) (rs fs : List BenchmarkRun) :
    (BenchmarkRunner.calculateResult name rs fs).runs = rs := by
  simp only [BenchmarkRunner.calculateResult]
  split <;> rfl

theorem calculateResult_failedRuns (name : String) (rs fs : List BenchmarkRun) :
    (BenchmarkRunner.calculateResult name rs fs).failedRuns = fs := by
  simp only [BenchmarkRunner.calculateResult]
  split <;> rfl

theorem calculateResult_totalRuns (name : String) (rs fs : List BenchmarkRun) :
    (BenchmarkRunner.calculateResult name rs fs).totalRuns = rs.length := by
  simp only [BenchmarkRunner.calculateResult]
  split <;> rfl

/-- The `failedRuns` sequence collected by the loop is exactly the
unsuccessful subsequence of the collected `runs`. -/
theorem runFrom_failedRuns_eq (rc : Int) (d : ℚ) (ff : Bool)
    (fn : Nat → Outcome) (ck : Nat → ℚ) :
    ∀ (fuel i : Nat),
      (BenchmarkRunner.runFrom rc d ff fn ck fuel i).failedRuns
        = (BenchmarkRunner.runFrom rc d ff fn ck fuel i).runs.filter (fun r => !r.success) := by
  intro fuel
  induction fuel with
  | zero => intro i; rfl
  | succ k ih =>
    intro i
    simp only [BenchmarkRunner.runFrom]
    cases h : fn i with
    | ok s =>
      cases hs : s.success with
      | false =>
        cases ff with
        | true => simp [BenchmarkRunner.runOfOutcome, hs]
        | false => simp [BenchmarkRunner.runOfOutcome, hs, ih]
      | true =>
        simp [BenchmarkRunner.runOfOutcome, hs, ih]
    | thrown msg =>
      cases ff with
      | true => simp [BenchmarkRunner.runOfOutcome]
      | false => simp [BenchmarkRunner.runOfOutcome, ih]

/-- Every run collected by the loop is the run built (by `runOfOutcome`)
from the sample-source outcome at its own run number. -/
theorem runFrom_runs_mem (rc : Int) (d : ℚ) (ff : Bool)
    (fn : Nat → Outcome) (ck : Nat → ℚ) :
    ∀ (fuel i : Nat) (r : BenchmarkRun),
      r ∈ (BenchmarkRunner.runFrom rc d ff fn ck fuel i).runs →
      r = BenchmarkRunner.runOfOutcome r.runNumber (ck r.runNumber) (fn r.runNumber) := by
  intro fuel
  induction fuel with
  | zero => intro i r hr; simp [BenchmarkRunner.runFrom] at hr
  | succ k ih =>
    intro i r
    simp only [BenchmarkRunner.runFrom]
    cases h : fn i with
    | ok s =>
      cases hcond : (!s.success && ff) with
      | true =>
        simp only [hcond, if_true, List.mem_singleton]
        intro hr
        subst hr
        simp [BenchmarkRunner.runOfOutcome, h]
      | false =>
        simp only [hcond, Bool.false_eq_true, if_false, List.mem_cons]
        intro hr
        rcases hr with hr | hr
        · subst hr
          simp [BenchmarkRunner.runOfOutcome, h]
        · exact ih (i + 1) r hr
    | thrown msg =>
      cases ff with
      | true =>
        simp only [if_true, List.mem_singleton]
        intro hr
        subst hr
        simp [BenchmarkRunner.runOfOutcome, h]
      | false =>
        simp only [Bool.false_eq_true, if_false, List.mem_cons]
        intro hr
        rcases hr with hr | hr
        · subst hr
          simp [BenchmarkRunner.runOfOutcome, h]
        · exact ih (i + 1) r hr

theorem countDelays_nil : countDelays [] = 0 := rfl

theorem countDelays_sample (i : Nat) (es : List RunnerEvent) :
    countDelays (RunnerEvent.sampleAwait i :: es) = countDelays es := by
  simp [countDelays]

theorem countDelays_delay (q : ℚ) (es : List RunnerEvent) :
    countDelays (RunnerEvent.delayAwait q :: es) = countDelays es + 1 := by
  simp [countDelays, List.countP_cons]

theorem countDelays_append (es fs : List RunnerEvent) :
    countDelays (es ++ fs) = countDelays es + countDelays fs := by
  simp [countDelays, List.countP_append]

/-- A sweep in which every sample-source invocation throws performs no
delay suspension at all: the `catch` branch never reaches the delay. -/
theorem runFrom_countDelays_thrown (rc : Int) (d : ℚ) (ff : Bool)
    (fn : Nat → Outcome) (ck : Nat → ℚ)
    (hthrow : ∀ i, ∃ m, fn i = Outcome.thrown m) :
    ∀ (fuel i : Nat),
      countDelays (BenchmarkRunner.runFrom rc d ff fn ck fuel i).events = 0 := by
  intro fuel
  induction fuel with
  | zero => intro i; rfl
  | succ k ih =>
    intro i
    obtain ⟨m, hm⟩ := hthrow i
    simp only [BenchmarkRunner.runFrom, hm]
    cases ff with
    | true => simp [countDelays]
    | false =>
      simp only [Bool.false_eq_true, if_false]
      rw [countDelays_sample]
      exact ih (i + 1)

/-- A sweep with `failFast = false`, a positive delay, and a sample source
that always returns normally performs exactly one delay per iteration
except after the last configured run. -/
theorem runFrom_countDelays_ok (rc : Int) (d : ℚ)
    (fn : Nat → Outcome) (ck : Nat → ℚ)
    (hok : ∀ i, ∃ s, fn i = Outcome.ok s) (hd : 0 < d) :
    ∀ (fuel i : Nat), ((i : Int) + (fuel : Int) = rc + 1) →
      countDelays (BenchmarkRunner.runFrom rc d false fn ck fuel i).events = fuel - 1 := by
  intro fuel
  induction fuel with
  | zero => intro i _; rfl
  | succ k ih =>
    intro i hi
    obtain ⟨s, hs⟩ := hok i
    simp only [BenchmarkRunner.runFrom, hs, Bool.and_false, Bool.false_eq_true, if_false]
    rw [countDelays_sample, countDelays_append]
    cases k with
    | zero =>
      have hlt : ¬ ((i : Int) < rc) := by push_cast at hi ⊢; omega
      simp [hlt, countDelays, BenchmarkRunner.runFrom]
    | succ j =>
      have hlt : (i : Int) < rc := by push_cast at hi ⊢; omega
      have hrest := ih (i + 1) (by push_cast at hi ⊢; omega)
      simp only [hlt, hd, and_self, if_true, countDelays_delay, countDelays_nil, hrest]
      omega

/-- A loop with at least one iteration left always begins by awaiting the
sample source for the current run index. -/
theorem runFrom_events_cons (rc : Int) (d : ℚ) (ff : Bool)
    (fn : Nat → Outcome) (ck : Nat → ℚ) (fuel i : Nat) :
    ∃ tail, (BenchmarkRunner.runFrom rc d ff fn ck (fuel + 1) i).events
      = RunnerEvent.sampleAwait i :: tail := by
  simp only [BenchmarkRunner.runFrom]
  cases h : fn i with
  | ok s =>
    cases hcond : (!s.success && ff) with
    | true =>
      refine ⟨[], ?_⟩
      simp [hcond]
    | false =>
      refine ⟨(if (i : Int) < rc ∧ 0 < d then [RunnerEvent.delayAwait d] else [])
        ++ (BenchmarkRunner.runFrom rc d ff fn ck fuel (i + 1)).events, ?_⟩
      simp [hcond]
  | thrown msg =>
    cases ff with
    | true =>
      refine ⟨[], ?_⟩
      simp
    | false =>
      refine ⟨(BenchmarkRunner.runFrom rc d false fn ck fuel (i + 1)).events, ?_⟩
      simp

/-- In any sweep (mixed outcomes allowed), every recorded run whose
sample-source call returned normally, did not trigger a fail-fast break,
and is not the last configured run is — when the configured delay is
positive — immediately followed in the suspension trace by the inter-run
delay and then by the next iteration's sample await. -/
theorem runFrom_delay_after_ok (rc : Int) (d : ℚ) (ff : Bool)
    (fn : Nat → Outcome) (ck : Nat → ℚ) (hd : 0 < d) :
    ∀ (fuel i : Nat), ((i : Int) + (fuel : Int) = rc + 1) →
      ∀ r ∈ (BenchmarkRunner.runFrom rc d ff fn ck fuel i).runs,
      ∀ s : SingleRunResult, fn r.runNumber = Outcome.ok s →
      ¬(s.success = false ∧ ff = true) →
      (r.runNumber : Int) < rc →
      ∃ es₁ es₂, (BenchmarkRunner.runFrom rc d ff fn ck fuel i).events
        = es₁ ++ RunnerEvent.sampleAwait r.runNumber
            :: RunnerEvent.delayAwait d
            :: RunnerEvent.sampleAwait (r.runNumber + 1) :: es₂ := by
  intro fuel
  induction fuel with
  | zero => intro i _ r hr; simp [BenchmarkRunner.runFrom] at hr
  | succ k ih =>
    intro i hinv r
    simp only [BenchmarkRunner.runFrom]
    cases h : fn i with
    | ok s₀ =>
      cases hcond : (!s₀.success && ff) with
      | true =>
        simp only [hcond, if_true, List.mem_singleton]
        intro hrEq s hs hnobrk _
        subst hrEq
        have hs' : fn i = Outcome.ok s := hs
        rw [h] at hs'
        obtain rfl : s₀ = s := by injection hs'
        have hbrk : s₀.success = false ∧ ff = true := by simpa using hcond
        exact absurd hbrk hnobrk
      | false =>
        simp only [hcond, Bool.false_eq_true, if_false, List.mem_cons]
        intro hr s hs hnobrk hlt
        rcases hr with hrEq | hrMem
        · subst hrEq
          have hlt' : (i : Int) < rc := hlt
          have hk : 1 ≤ k := by push_cast at hinv; omega
          obtain ⟨j, rfl⟩ : ∃ j, k = j + 1 := ⟨k - 1, by omega⟩
          obtain ⟨tail, htail⟩ := runFrom_events_cons rc d ff fn ck j (i + 1)
          refine ⟨[], tail, ?_⟩
          simp only [BenchmarkRunner.runOfOutcome, htail, if_pos (And.intro hlt' hd),
            List.nil_append, List.cons_append, List.singleton_append]
        · obtain ⟨es₁, es₂, heq⟩ := ih (i + 1) (by push_cast at hinv ⊢; omega)
            r hrMem s hs hnobrk hlt
          refine ⟨RunnerEvent.sampleAwait i
            :: ((if (i : Int) < rc ∧ 0 < d then [RunnerEvent.delayAwait d] else []) ++ es₁),
            es₂, ?_⟩
          rw [heq]
          simp
    | thrown m₀ =>
      cases ff with
      | true =>
        simp only [if_true, List.mem_singleton]
        intro hrEq s hs _ _
        subst hrEq
        have hs' : fn i = Outcome.ok s := hs
        rw [h] at hs'
        exact Outcome.noConfusion hs'
      | false =>
        simp only [Bool.false_eq_true, if_false, List.mem_cons]
        intro hr s hs hnobrk hlt
        rcases hr with hrEq | hrMem
        · subst hrEq
          have hs' : fn i = Outcome.ok s := hs
          rw [h] at hs'
          exact Outcome.noConfusion hs'
        · obtain ⟨es₁, es₂, heq⟩ := ih (i + 1) (by push_cast at hinv ⊢; omega)
            r hrMem s hs (by simp only [Bool.false_eq_true]; exact hnobrk) hlt
          refine ⟨RunnerEvent.sampleAwait i :: es₁, es₂, ?_⟩
          rw [heq]
          simp

/-- In any sweep with `failFast` off (mixed outcomes allowed), every
recorded run whose sample-source call threw and that is not the last
configured run is immediately followed in the suspension trace by the
NEXT iteration's sample await: no delay suspension happens in between. -/
theorem runFrom_no_delay_after_thrown (rc : Int) (d : ℚ)
    (fn : Nat → Outcome) (ck : Nat → ℚ) :
    ∀ (fuel i : Nat), ((i : Int) + (fuel : Int) = rc + 1) →
      ∀ r ∈ (BenchmarkRunner.runFrom rc d false fn ck fuel i).runs,
      ∀ msg : String, fn r.runNumber = Outcome.thrown msg →
      (r.runNumber : Int) < rc →
      ∃ es₁ es₂, (BenchmarkRunner.runFrom rc d false fn ck fuel i).events
        = es₁ ++ RunnerEvent.sampleAwait r.runNumber
            :: RunnerEvent.sampleAwait (r.runNumber + 1) :: es₂ := by
  intro fuel
  induction fuel with
  | zero => intro i _ r hr; simp [BenchmarkRunner.runFrom] at hr
  | succ k ih =>
    intro i hinv r
    simp only [BenchmarkRunner.runFrom]
    cases h : fn i with
    | ok s₀ =>
      simp only [Bool.and_false, Bool.false_eq_true, if_false, List.mem_cons]
      intro hr msg hs hlt
      rcases hr with hrEq | hrMem
      · subst hrEq
        have hs' : fn i = Outcome.thrown msg := hs
        rw [h] at hs'
        exact Outcome.noConfusion hs'
      · obtain ⟨es₁, es₂, heq⟩ := ih (i + 1) (by push_cast at hinv ⊢; omega)
          r hrMem msg hs hlt
        refine ⟨RunnerEvent.sampleAwait i
          :: ((if (i : Int) < rc ∧ 0 < d then [RunnerEvent.delayAwait d] else []) ++ es₁),
          es₂, ?_⟩
        rw [heq]
        simp
    | thrown m₀ =>
      simp only [Bool.false_eq_true, if_false, List.mem_cons]
      intro hr msg hs hlt
      rcases hr with hrEq | hrMem
      · subst hrEq
        have hlt' : (i : Int) < rc := hlt
        have hk : 1 ≤ k := by push_cast at hinv; omega
        obtain ⟨j, rfl⟩ : ∃ j, k = j + 1 := ⟨k - 1, by omega⟩
        obtain ⟨tail, htail⟩ := runFrom_events_cons rc d false fn ck j (i + 1)
        refine ⟨[], tail, ?_⟩
        simp only [BenchmarkRunner.runOfOutcome, htail, List.nil_append]
      · obtain ⟨es₁, es₂, heq⟩ := ih (i + 1) (by push_cast at hinv ⊢; omega)
          r hrMem msg hs hlt
        refine ⟨RunnerEvent.sampleAwait i :: es₁, es₂, ?_⟩
        rw [heq]
        simp

/-- The left-to-right reduce with step `a < b ? a : b` lands on an element
of the seeded list that attains the minimum key; everything strictly after
the designated element has a strictly larger key (so among minimizers the
last one wins), and everything before has a larger-or-equal key. -/
theorem foldl_minBy_split {α β : Type*} [LinearOrder β] (key : α → β)
    (step : α → α → α) (hstep : ∀ p q, step p q = if key p < key q then p else q) :
    ∀ (xs : List α) (a : α), ∃ l₁ l₂ : List α,
      a :: xs = l₁ ++ (xs.foldl step a) :: l₂
      ∧ (∀ x ∈ l₁, key (xs.foldl step a) ≤ key x)
      ∧ (∀ x ∈ l₂, key (xs.foldl step a) < key x) := by
  intro xs
  induction xs with
  | nil =>
    intro a
    exact ⟨[], [], rfl, by simp, by simp⟩
  | cons b xs ih =>
    intro a
    obtain ⟨l₁', l₂', heq, h₁, h₂⟩ := ih (step a b)
    have hrab : key (xs.foldl step (step a b)) ≤ key (step a b) := by
      have hmem : step a b ∈ l₁' ++ xs.foldl step (step a b) :: l₂' := by
        rw [← heq]; exact List.mem_cons_self _ _
      rcases List.mem_append.mp hmem with h | h
      · exact h₁ _ h
      · rcases List.mem_cons.mp h with h | h
        · exact le_of_eq (congrArg key h.symm)
        · exact le_of_lt (h₂ _ h)
    rw [List.foldl_cons]
    by_cases hab : key a < key b
    · simp only [hstep a b, if_pos hab] at heq h₁ h₂ hrab ⊢
      rcases l₁' with _ | ⟨c, t⟩
      · simp only [List.nil_append, List.cons_eq_cons] at heq
        obtain ⟨hra, hxs⟩ := heq
        refine ⟨[], b :: xs, by simp [← hra], by simp, ?_⟩
        intro x hx
        rcases List.mem_cons.mp hx with hx | hx
        · rw [hx, ← hra]; exact hab
        · rw [hxs] at hx; exact h₂ _ hx
      · simp only [List.cons_append, List.cons_eq_cons] at heq
        obtain ⟨hca, hxs⟩ := heq
        have hra : key (List.foldl step a xs) ≤ key a := by
          have h' := h₁ c (List.mem_cons_self c t)
          rw [← hca] at h'
          exact h'
        refine ⟨a :: b :: t, l₂', by (conv_lhs => rw [hxs]); simp, ?_, h₂⟩
        intro x hx
        rcases List.mem_cons.mp hx with hx | hx
        · rw [hx]; exact hra
        · rcases List.mem_cons.mp hx with hx | hx
          · rw [hx]; exact le_of_lt (lt_of_le_of_lt hra hab)
          · exact h₁ x (List.mem_cons_of_mem _ hx)
    · simp only [hstep a b, if_neg hab] at heq h₁ h₂ hrab ⊢
      refine ⟨a :: l₁', l₂', by simp [heq], ?_, h₂⟩
      intro x hx
      rcases List.mem_cons.mp hx with hx | hx
      · rw [hx]; exact le_trans hrab (le_of_not_lt hab)
      · exact h₁ x hx

theorem length_filter_partition (l : List BenchmarkRun) :
    (l.filter (fun r => !r.success)).length + (l.filter (fun r => r.success)).length
      = l.length := by
  induction l with
  | nil => rfl
  | cons x t ih =>
    cases hx : x.success <;> simp only [List.filter_cons, hx] <;> simp <;> omega

/-- The invariants of `calculateResult` when fed a failed-runs list that is
(as the loop guarantees) the unsuccessful subsequence of the runs list. -/
theorem calculateResult_invariants (providerName : String)
    (rs fs : List BenchmarkRun) (hfs : fs = rs.filter (fun r => !r.success)) :
    (BenchmarkRunner.calculateResult providerName rs fs).failedRuns.length
        + ((BenchmarkRunner.calculateResult providerName rs fs).runs.filter
            (fun r => r.success)).length
      = (BenchmarkRunner.calculateResult providerName rs fs).totalRuns
    ∧ (BenchmarkRunner.calculateResult providerName rs fs).successRate
      = (((BenchmarkRunner.calculateResult providerName rs fs).runs.filter
            (fun r => r.success)).length : ℚ)
        / ((BenchmarkRunner.calculateResult providerName rs fs).totalRuns : ℚ)
    ∧ 0 ≤ (BenchmarkRunner.calculateResult providerName rs fs).successRate
    ∧ (BenchmarkRunner.calculateResult providerName rs fs).successRate ≤ 1
    ∧ ((BenchmarkRunner.calculateResult providerName rs fs).successRate = 0
        ↔ (BenchmarkRunner.calculateResult providerName rs fs).failedRuns.length
          = (BenchmarkRunner.calculateResult providerName rs fs).totalRuns) := by
  subst hfs
  have hpart := length_filter_partition rs
  rw [calculateResult_runs, calculateResult_failedRuns, calculateResult_totalRuns]
  by_cases h : (rs.filter (fun r => r.success)).length = 0
  · have hrate : (BenchmarkRunner.calculateResult providerName rs
        (rs.filter (fun r => !r.success))).successRate = 0 := by
      simp only [BenchmarkRunner.calculateResult]
      rw [if_pos h]
    refine ⟨by omega, ?_, ?_, ?_, ?_⟩
    · rw [hrate, h]; simp
    · rw [hrate]
    · rw [hrate]; norm_num
    · rw [hrate]; exact iff_of_true rfl (by omega)
  · have hrate : (BenchmarkRunner.calculateResult providerName rs
        (rs.filter (fun r => !r.success))).successRate
        = ((rs.filter (fun r => r.success)).length : ℚ) / (rs.length : ℚ) := by
      simp only [BenchmarkRunner.calculateResult]
      rw [if_neg h]
    have hn : 0 < rs.length := by omega
    have hnq : (0 : ℚ) < (rs.length : ℚ) := by exact_mod_cast hn
    refine ⟨by omega, hrate, ?_, ?_, ?_⟩
    · rw [hrate]
      exact div_nonneg (by positivity) (le_of_lt hnq)
    · rw [hrate]
      rw [div_le_one hnq]
      exact_mod_cast (by omega : (rs.filter (fun r => r.success)).length ≤ rs.length)
    · rw [hrate]
      refine iff_of_false ?_ (by omega)
      refine div_ne_zero ?_ (ne_of_gt hnq)
      exact_mod_cast h

/-! ### Claim theorems -/

/-- C1: for every result of `runMultiple`, the failed runs and the
successful runs partition the attempted runs
(`failedRuns.length + successfulCount = totalRuns`); the success rate is
the successful count divided by the attempted count, lies in `[0, 1]`, and
is zero exactly when every attempted run failed. -/
theorem spec_C1_aggregate_invariants (cfg : BenchmarkConfig)
    (benchmarkFn : Nat → Outcome) (providerName : String) (clock : Nat → ℚ) :
    (BenchmarkRunner.runMultiple cfg benchmarkFn providerName clock).result.failedRuns.length
        + ((BenchmarkRunner.runMultiple cfg benchmarkFn providerName clock).result.runs.filter
            (fun r => r.success)).length
      = (BenchmarkRunner.runMultiple cfg benchmarkFn providerName clock).result.totalRuns
    ∧ (BenchmarkRunner.runMultiple cfg benchmarkFn providerName clock).result.successRate
      = (((BenchmarkRunner.runMultiple cfg benchmarkFn providerName clock).result.runs.filter
            (fun r => r.success)).length : ℚ)
        / ((BenchmarkRunner.runMultiple cfg benchmarkFn providerName clock).result.totalRuns : ℚ)
    ∧ 0 ≤ (BenchmarkRunner.runMultiple cfg benchmarkFn providerName clock).result.successRate
    ∧ (BenchmarkRunner.runMultiple cfg benchmarkFn providerName clock).result.successRate ≤ 1
    ∧ ((BenchmarkRunner.runMultiple cfg benchmarkFn providerName clock).result.successRate = 0
        ↔ (BenchmarkRunner.runMultiple cfg benchmarkFn providerName clock).result.failedRuns.length
          = (BenchmarkRunner.runMultiple cfg benchmarkFn providerName clock).result.totalRuns) := by
  have hres : (BenchmarkRunner.runMultiple cfg benchmarkFn providerName clock).result
      = BenchmarkRunner.calculateResult providerName
          (BenchmarkRunner.runFrom cfg.runCount cfg.delayBetweenRuns cfg.failFast
            benchmarkFn clock cfg.runCount.toNat 1).runs
          ((BenchmarkRunner.runFrom cfg.runCount cfg.delayBetweenRuns cfg.failFast
            benchmarkFn clock cfg.runCount.toNat 1).runs.filter (fun r => !r.success)) := by
    rw [← runFrom_failedRuns_eq]
    rfl
  rw [hres]
  exact calculateResult_invariants providerName _ _ rfl

/-- C2: when no attempted run succeeds, every averages field, every
statistics field (standard deviation, min, max over all three duration
dimensions) and the success rate of the aggregated result equal 0, while
the full run sequence and the failed-run sequence collected by the loop
are preserved unchanged in the result. -/
theorem spec_C2_zero_success_all_zero (cfg : BenchmarkConfig)
    (benchmarkFn : Nat → Outcome) (providerName : String) (clock : Nat → ℚ)
    (hfail : ∀ r ∈ (BenchmarkRunner.runMultiple cfg benchmarkFn providerName clock).result.runs,
      r.success = false) :
    (BenchmarkRunner.runMultiple cfg benchmarkFn providerName clock).result.averages = ⟨0, 0, 0⟩
    ∧ (BenchmarkRunner.runMultiple cfg benchmarkFn providerName clock).result.statistics
      = ⟨⟨0, 0, 0⟩, ⟨0, 0, 0⟩, ⟨0, 0, 0⟩⟩
    ∧ (BenchmarkRunner.runMultiple cfg benchmarkFn providerName clock).result.successRate = 0
    ∧ (BenchmarkRunner.runMultiple cfg benchmarkFn providerName clock).result.runs
      = (BenchmarkRunner.runFrom cfg.runCount cfg.delayBetweenRuns cfg.failFast
          benchmarkFn clock cfg.runCount.toNat 1).runs
    ∧ (BenchmarkRunner.runMultiple cfg benchmarkFn providerName clock).result.failedRuns
      = (BenchmarkRunner.runFrom cfg.runCount cfg.delayBetweenRuns cfg.failFast
          benchmarkFn clock cfg.runCount.toNat 1).failedRuns := by
  have hres : (BenchmarkRunner.runMultiple cfg benchmarkFn providerName clock).result
      = BenchmarkRunner.calculateResult providerName
          (BenchmarkRunner.runFrom cfg.runCount cfg.delayBetweenRuns cfg.failFast
            benchmarkFn clock cfg.runCount.toNat 1).runs
          (BenchmarkRunner.runFrom cfg.runCount cfg.delayBetweenRuns cfg.failFast
            benchmarkFn clock cfg.runCount.toNat 1).failedRuns := rfl
  rw [hres] at hfail ⊢
  rw [calculateResult_runs] at hfail
  have hnil : (BenchmarkRunner.runFrom cfg.runCount cfg.delayBetweenRuns cfg.failFast
      benchmarkFn clock cfg.runCount.toNat 1).runs.filter (fun r => r.success) = [] := by
    rw [List.filter_eq_nil_iff]
    intro r hr
    simp [hfail r hr]
  have hzero : ((BenchmarkRunner.runFrom cfg.runCount cfg.delayBetweenRuns cfg.failFast
      benchmarkFn clock cfg.runCount.toNat 1).runs.filter (fun r => r.success)).length = 0 := by
    rw [hnil]; rfl
  simp only [BenchmarkRunner.calculateResult]
  rw [if_pos hzero]
  exact ⟨rfl, rfl, rfl, rfl, rfl⟩

/-- Witness for C2 at a concrete configuration and an always-throwing
sample source. -/
theorem spec_C2_zero_success_all_zero_witness :
    (BenchmarkRunner.runMultiple ⟨2, 0, false, false, true⟩
      (fun _ => Outcome.thrown "boom") "P" (fun _ => 0)).result.averages = ⟨0, 0, 0⟩
    ∧ (BenchmarkRunner.runMultiple ⟨2, 0, false, false, true⟩
      (fun _ => Outcome.thrown "boom") "P" (fun _ => 0)).result.successRate = 0 := by
  have h := spec_C2_zero_success_all_zero ⟨2, 0, false, false, true⟩
    (fun _ => Outcome.thrown "boom") "P" (fun _ => 0) (by decide)
  exact ⟨h.1, h.2.2.1⟩

/-- C3: every run whose sample-source invocation threw is recorded with
all three durations zero, `success = false` and the thrown error's
description in the `error` field, and belongs to both the run sequence and
the failed-run sequence.  (`runMultiple` itself is a total function of the
embedding: a thrown provider error is converted to data, never
propagated.) -/
theorem spec_C3_thrown_synthesized (cfg : BenchmarkConfig)
    (benchmarkFn : Nat → Outcome) (providerName : String) (clock : Nat → ℚ)
    (msg : String) (r : BenchmarkRun)
    (hr : r ∈ (BenchmarkRunner.runMultiple cfg benchmarkFn providerName clock).result.runs)
    (hthrow : benchmarkFn r.runNumber = Outcome.thrown msg) :
    r.sandboxCreationTime = 0 ∧ r.fileCreationTime = 0 ∧ r.totalTime = 0
    ∧ r.success = false ∧ r.error = some msg
    ∧ r ∈ (BenchmarkRunner.runMultiple cfg benchmarkFn providerName clock).result.failedRuns := by
  have hres : (BenchmarkRunner.runMultiple cfg benchmarkFn providerName clock).result
      = BenchmarkRunner.calculateResult providerName
          (BenchmarkRunner.runFrom cfg.runCount cfg.delayBetweenRuns cfg.failFast
            benchmarkFn clock cfg.runCount.toNat 1).runs
          (BenchmarkRunner.runFrom cfg.runCount cfg.delayBetweenRuns cfg.failFast
            benchmarkFn clock cfg.runCount.toNat 1).failedRuns := rfl
  rw [hres] at hr ⊢
  rw [calculateResult_runs] at hr
  rw [calculateResult_failedRuns]
  have hform := runFrom_runs_mem cfg.runCount cfg.delayBetweenRuns cfg.failFast
    benchmarkFn clock cfg.runCount.toNat 1 r hr
  rw [hthrow] at hform
  have hsucc : r.success = false := by rw [hform]; rfl
  refine ⟨by rw [hform]; rfl, by rw [hform]; rfl, by rw [hform]; rfl,
    hsucc, by rw [hform]; rfl, ?_⟩
  rw [runFrom_failedRuns_eq, List.mem_filter]
  exact ⟨hr, by rw [hsucc]; rfl⟩

/-- Witness for C3 at a concrete sweep whose single invocation throws. -/
theorem spec_C3_thrown_synthesized_witness :
    (⟨1, 0, 0, 0, false, some "boom", 0⟩ : BenchmarkRun)
      ∈ (BenchmarkRunner.runMultiple ⟨1, 0, false, false, true⟩
          (fun _ => Outcome.thrown "boom") "P" (fun _ => 0)).result.runs
    ∧ (⟨1, 0, 0, 0, false, some "boom", 0⟩ : BenchmarkRun).totalTime = 0
    ∧ (⟨1, 0, 0, 0, false, some "boom", 0⟩ : BenchmarkRun)
      ∈ (BenchmarkRunner.runMultiple ⟨1, 0, false, false, true⟩
          (fun _ => Outcome.thrown "boom") "P" (fun _ => 0)).result.failedRuns := by
  have hmem : (⟨1, 0, 0, 0, false, some "boom", 0⟩ : BenchmarkRun)
      ∈ (BenchmarkRunner.runMultiple ⟨1, 0, false, false, true⟩
          (fun _ => Outcome.thrown "boom") "P" (fun _ => 0)).result.runs := by decide
  have h := spec_C3_thrown_synthesized ⟨1, 0, false, false, true⟩
    (fun _ => Outcome.thrown "boom") "P" (fun _ => 0) "boom"
    ⟨1, 0, 0, 0, false, some "boom", 0⟩ hmem rfl
  exact ⟨hmem, h.2.2.1, h.2.2.2.2.2⟩

/-- C4: with `failFast = true` and a sample source that always fails
(throws or returns `success = false`), exactly one run is attempted for
any configured run count of at least 1; with `failFast = false` and a
source failing exactly on run 3 of a configured 5, all five runs are
attempted, exactly one run fails, and its run number is 3. -/
theorem spec_C4_failfast_stopping :
    (∀ (cfg : BenchmarkConfig) (benchmarkFn : Nat → Outcome)
        (providerName : String) (clock : Nat → ℚ),
      cfg.failFast = true → 1 ≤ cfg.runCount →
      (∀ i, outcomeFails (benchmarkFn i) = true) →
      (BenchmarkRunner.runMultiple cfg benchmarkFn providerName clock).result.totalRuns = 1)
    ∧ (BenchmarkRunner.runMultiple ⟨5, 0, false, false, true⟩
        (fun i => if i = 3 then Outcome.ok ⟨100, 50, 150, false, some "boom"⟩
                  else Outcome.ok ⟨100, 50, 150, true, none⟩)
        "P" (fun _ => 0)).result.totalRuns = 5
    ∧ (BenchmarkRunner.runMultiple ⟨5, 0, false, false, true⟩
        (fun i => if i = 3 then Outcome.ok ⟨100, 50, 150, false, some "boom"⟩
                  else Outcome.ok ⟨100, 50, 150, true, none⟩)
        "P" (fun _ => 0)).result.failedRuns.length = 1
    ∧ (BenchmarkRunner.runMultiple ⟨5, 0, false, false, true⟩
        (fun i => if i = 3 then Outcome.ok ⟨100, 50, 150, false, some "boom"⟩
                  else Outcome.ok ⟨100, 50, 150, true, none⟩)
        "P" (fun _ => 0)).result.failedRuns.map (fun r => r.runNumber) = [3] := by
  refine ⟨?_, by decide, by decide, by decide⟩
  intro cfg benchmarkFn providerName clock hff hrc hfail
  have hres : (BenchmarkRunner.runMultiple cfg benchmarkFn providerName clock).result
      = BenchmarkRunner.calculateResult providerName
          (BenchmarkRunner.runFrom cfg.runCount cfg.delayBetweenRuns cfg.failFast
            benchmarkFn clock cfg.runCount.toNat 1).runs
          (BenchmarkRunner.runFrom cfg.runCount cfg.delayBetweenRuns cfg.failFast
            benchmarkFn clock cfg.runCount.toNat 1).failedRuns := rfl
  rw [hres, calculateResult_totalRuns]
  obtain ⟨k, hk⟩ : ∃ k, cfg.runCount.toNat = k + 1 := by
    refine ⟨cfg.runCount.toNat - 1, ?_⟩
    omega
  rw [hk]
  have h1 := hfail 1
  simp only [BenchmarkRunner.runFrom]
  cases h : benchmarkFn 1 with
  | ok s =>
    rw [h] at h1
    simp only [outcomeFails] at h1
    simp only [h1, hff, Bool.and_true, if_true, List.length_singleton]
  | thrown msg =>
    simp only [hff, if_true, List.length_singleton]

/-- Witness for C4's fail-fast half at a concrete always-throwing source
with a configured run count of 7. -/
theorem spec_C4_failfast_stopping_witness :
    (BenchmarkRunner.runMultiple ⟨7, 1, true, false, true⟩
      (fun _ => Outcome.thrown "down") "P" (fun _ => 0)).result.totalRuns = 1 :=
  spec_C4_failfast_stopping.1 ⟨7, 1, true, false, true⟩
    (fun _ => Outcome.thrown "down") "P" (fun _ => 0) rfl (by decide) (fun _ => rfl)

/-- C9: the `outlierDetection` flag is never consulted: two configurations
that agree on every other field produce identical runner outputs (the same
aggregated result and the same event trace) for every sample source. -/
theorem spec_C9_outlier_detection_no_effect (cfg₁ cfg₂ : BenchmarkConfig)
    (benchmarkFn : Nat → Outcome) (providerName : String) (clock : Nat → ℚ)
    (hrc : cfg₁.runCount = cfg₂.runCount)
    (hd : cfg₁.delayBetweenRuns = cfg₂.delayBetweenRuns)
    (hff : cfg₁.failFast = cfg₂.failFast)
    (hv : cfg₁.verbose = cfg₂.verbose) :
    BenchmarkRunner.runMultiple cfg₁ benchmarkFn providerName clock
      = BenchmarkRunner.runMultiple cfg₂ benchmarkFn providerName clock := by
  obtain ⟨rc₁, d₁, ff₁, v₁, o₁⟩ := cfg₁
  obtain ⟨rc₂, d₂, ff₂, v₂, o₂⟩ := cfg₂
  dsimp only at hrc hd hff hv
  subst hrc
  subst hd
  subst hff
  subst hv
  rfl

/-- Witness for C9 at two concrete configurations differing only in the
outlier-detection flag. -/
theorem spec_C9_outlier_detection_no_effect_witness :
    BenchmarkRunner.runMultiple ⟨2, 1, false, false, true⟩
        (fun _ => Outcome.ok ⟨10, 5, 15, true, none⟩) "P" (fun _ => 0)
      = BenchmarkRunner.runMultiple ⟨2, 1, false, false, false⟩
        (fun _ => Outcome.ok ⟨10, 5, 15, true, none⟩) "P" (fun _ => 0) :=
  spec_C9_outlier_detection_no_effect ⟨2, 1, false, false, true⟩
    ⟨2, 1, false, false, false⟩ (fun _ => Outcome.ok ⟨10, 5, 15, true, none⟩)
    "P" (fun _ => 0) rfl rfl rfl rfl

/-- C10: a non-positive configured run count makes the loop body
unreachable: no sample invocation happens (the event trace is empty) and
the aggregated result is the empty-sweep result with `totalRuns = 0`,
empty run sequences, success rate 0 and all derived fields 0. -/
theorem spec_C10_nonpositive_runcount (cfg : BenchmarkConfig)
    (benchmarkFn : Nat → Outcome) (providerName : String) (clock : Nat → ℚ)
    (h : cfg.runCount ≤ 0) :
    (BenchmarkRunner.runMultiple cfg benchmarkFn providerName clock).result
      = ⟨providerName, [], ⟨0, 0, 0⟩, ⟨⟨0, 0, 0⟩, ⟨0, 0, 0⟩, ⟨0, 0, 0⟩⟩, 0, 0, []⟩
    ∧ (BenchmarkRunner.runMultiple cfg benchmarkFn providerName clock).events = [] := by
  have h0 : cfg.runCount.toNat = 0 := Int.toNat_of_nonpos h
  constructor
  · show (BenchmarkRunner.calculateResult providerName
        (BenchmarkRunner.runFrom cfg.runCount cfg.delayBetweenRuns cfg.failFast
          benchmarkFn clock cfg.runCount.toNat 1).runs
        (BenchmarkRunner.runFrom cfg.runCount cfg.delayBetweenRuns cfg.failFast
          benchmarkFn clock cfg.runCount.toNat 1).failedRuns) = _
    rw [h0]
    rfl
  · show (BenchmarkRunner.runFrom cfg.runCount cfg.delayBetweenRuns cfg.failFast
        benchmarkFn clock cfg.runCount.toNat 1).events = []
    rw [h0]
    rfl

/-- Witness for C10 at a concrete configuration with run count `-2`. -/
theorem spec_C10_nonpositive_runcount_witness :
    (BenchmarkRunner.runMultiple ⟨-2, 1000, false, true, true⟩
      (fun _ => Outcome.ok ⟨10, 5, 15, true, none⟩) "P" (fun _ => 0)).result.totalRuns = 0
    ∧ (BenchmarkRunner.runMultiple ⟨-2, 1000, false, true, true⟩
      (fun _ => Outcome.ok ⟨10, 5, 15, true, none⟩) "P" (fun _ => 0)).events = [] := by
  have h := spec_C10_nonpositive_runcount ⟨-2, 1000, false, true, true⟩
    (fun _ => Outcome.ok ⟨10, 5, 15, true, none⟩) "P" (fun _ => 0) (by decide)
  exact ⟨by rw [h.1], h.2⟩

theorem foldl_add_eq_sum (l : List ℚ) :
    ∀ a : ℚ, l.foldl (fun sum val => sum + val) a = a + l.sum := by
  induction l with
  | nil => intro a; simp
  | cons x t ih => intro a; simp only [List.foldl_cons, List.sum_cons, ih]; ring

theorem calculateMean_eq_sum_div (l : List ℚ) :
    StatisticsCalculator.calculateMean l = l.sum / (l.length : ℚ) := by
  unfold StatisticsCalculator.calculateMean
  split
  · next h =>
    have hl : l = [] := List.length_eq_zero.mp h
    subst hl
    simp
  · rw [foldl_add_eq_sum]
    simp

/-- `calculateStandardDeviation` computes the population standard
deviation: the square root of the mean of squared deviations from the
arithmetic mean (with the empty case collapsing to `sqrt 0`). -/
theorem calculateStandardDeviation_formula (values : List ℚ) :
    StatisticsCalculator.calculateStandardDeviation values
      = Real.sqrt (((values.map (fun x => (x - values.sum / (values.length : ℚ)) ^ 2)).sum
          / (values.length : ℚ) : ℚ)) := by
  unfold StatisticsCalculator.calculateStandardDeviation
  split
  · next h =>
    have hl : values = [] := List.length_eq_zero.mp h
    subst hl
    simp
  · next h =>
    have hm : StatisticsCalculator.calculateMean values
        = values.sum / (values.length : ℚ) := calculateMean_eq_sum_div values
    simp only [hm,
      calculateMean_eq_sum_div
        (values.map (fun val => (val - values.sum / (values.length : ℚ)) ^ 2)),
      List.length_map]

/-- C5: `calculateStandardDeviation` is the population standard deviation
(square root of the mean squared deviation from the mean); it returns 0 on
the empty sequence and on every single-element sequence, is non-negative
on every non-empty sequence, and is 0 whenever all elements are equal. -/
theorem spec_C5_standard_deviation :
    (∀ values : List ℚ,
      StatisticsCalculator.calculateStandardDeviation values
        = Real.sqrt (((values.map
              (fun x => (x - values.sum / (values.length : ℚ)) ^ 2)).sum
            / (values.length : ℚ) : ℚ)))
    ∧ StatisticsCalculator.calculateStandardDeviation [] = 0
    ∧ (∀ a : ℚ, StatisticsCalculator.calculateStandardDeviation [a] = 0)
    ∧ (∀ values : List ℚ, values ≠ [] →
        0 ≤ StatisticsCalculator.calculateStandardDeviation values)
    ∧ (∀ (values : List ℚ) (c : ℚ), values ≠ [] → (∀ x ∈ values, x = c) →
        StatisticsCalculator.calculateStandardDeviation values = 0) := by
  refine ⟨calculateStandardDeviation_formula, ?_, ?_, ?_, ?_⟩
  · simp [StatisticsCalculator.calculateStandardDeviation]
  · intro a
    norm_num [StatisticsCalculator.calculateStandardDeviation,
      StatisticsCalculator.calculateMean]
  · intro values _
    unfold StatisticsCalculator.calculateStandardDeviation
    split
    · exact le_refl 0
    · exact Real.sqrt_nonneg _
  · intro values c hne hc
    have hrep : values = List.replicate values.length c :=
      List.eq_replicate_length.mpr hc
    have hn : (values.length : ℚ) ≠ 0 := by
      have : values.length ≠ 0 := by
        simpa [List.length_eq_zero] using hne
      exact_mod_cast this
    have hs : values.sum = (values.length : ℚ) * c := by
      conv_lhs => rw [hrep]
      rw [List.sum_replicate, nsmul_eq_mul]
    have hmean : values.sum / (values.length : ℚ) = c := by
      rw [hs]
      exact mul_div_cancel_left₀ c hn
    have hmap : values.map (fun x => (x - values.sum / (values.length : ℚ)) ^ 2)
        = List.replicate values.length 0 := by
      rw [hmean]
      conv_lhs => rw [hrep]
      rw [List.map_replicate]
      simp
    rw [calculateStandardDeviation_formula, hmap, List.sum_replicate]
    simp

/-- Witness for C5 at concrete sequences. -/
theorem spec_C5_standard_deviation_witness :
    0 ≤ StatisticsCalculator.calculateStandardDeviation [1, 2]
    ∧ StatisticsCalculator.calculateStandardDeviation [3, 3, 3] = 0 :=
  ⟨spec_C5_standard_deviation.2.2.2.1 [1, 2] (by decide),
   spec_C5_standard_deviation.2.2.2.2 [3, 3, 3] 3 (by decide) (by decide)⟩

/-- C6: for a result with success rate 0, the reporter renders the `"N/A"`
sentinel — not a formatted `"0.00ms"` — for the provisioning, file and
total averages and for the standard deviation, and such a result is never
admitted to the narrative fastest/most-consistent comparison. -/
theorem spec_C6_zero_rate_sentinel (result : BenchmarkResult)
    (h : result.successRate = 0) :
    avgSandboxCell result = "N/A"
    ∧ avgFileCell result = "N/A"
    ∧ avgTotalCell result = "N/A"
    ∧ (∀ fmtReal : ℝ → String, stdDevCell fmtReal result = "N/A")
    ∧ avgTotalCell result ≠ "0.00ms"
    ∧ (∀ results : List BenchmarkResult, result ∉ successfulResults results) := by
  have hno : ¬ (result.successRate > 0) := by rw [h]; exact lt_irrefl 0
  refine ⟨?_, ?_, ?_, ?_, ?_, ?_⟩
  · simp [avgSandboxCell, hno]
  · simp [avgFileCell, hno]
  · simp [avgTotalCell, hno]
  · intro fmtReal; simp [stdDevCell, hno]
  · simp [avgTotalCell, hno]
  · intro results hmem
    rw [successfulResults, List.mem_filter] at hmem
    exact hno (by exact_mod_cast of_decide_eq_true hmem.2)

/-- Witness for C6 at a concrete zero-success result. -/
theorem spec_C6_zero_rate_sentinel_witness :
    avgTotalCell ⟨"Z", [], ⟨0, 0, 0⟩, ⟨⟨0, 0, 0⟩, ⟨0, 0, 0⟩, ⟨0, 0, 0⟩⟩, 0, 3, []⟩ = "N/A"
    ∧ stdDevCell (fun _ => "")
        ⟨"Z", [], ⟨0, 0, 0⟩, ⟨⟨0, 0, 0⟩, ⟨0, 0, 0⟩, ⟨0, 0, 0⟩⟩, 0, 3, []⟩ = "N/A"
    ∧ (⟨"Z", [], ⟨0, 0, 0⟩, ⟨⟨0, 0, 0⟩, ⟨0, 0, 0⟩, ⟨0, 0, 0⟩⟩, 0, 3, []⟩ : BenchmarkResult)
      ∉ successfulResults
          [⟨"Z", [], ⟨0, 0, 0⟩, ⟨⟨0, 0, 0⟩, ⟨0, 0, 0⟩, ⟨0, 0, 0⟩⟩, 0, 3, []⟩] := by
  have h := spec_C6_zero_rate_sentinel
    ⟨"Z", [], ⟨0, 0, 0⟩, ⟨⟨0, 0, 0⟩, ⟨0, 0, 0⟩, ⟨0, 0, 0⟩⟩, 0, 3, []⟩ rfl
  exact ⟨h.2.2.1, h.2.2.2.1 (fun _ => ""), h.2.2.2.2.2
    [⟨"Z", [], ⟨0, 0, 0⟩, ⟨⟨0, 0, 0⟩, ⟨0, 0, 0⟩, ⟨0, 0, 0⟩⟩, 0, 3, []⟩]⟩

/-- C7 (amended): among the providers with non-zero success rate, the
narrative summary designates a provider attaining the lowest average total
time as "fastest" and one attaining the lowest standard deviation of total
time as "most consistent"; the left-to-right reduce keeps the accumulator
only when it is strictly smaller, so among several minimizers the LAST
encountered is designated (ties are last-encountered-wins, not
first-encountered-wins); in the 200-versus-150 scenario the second
provider is designated fastest. -/
theorem spec_C7_narrative_designation :
    (∀ (results : List BenchmarkResult) (f : BenchmarkResult),
      2 ≤ (successfulResults results).length →
      fastestOf (successfulResults results) = some f →
      ∃ l₁ l₂, successfulResults results = l₁ ++ f :: l₂
        ∧ (∀ x ∈ l₁, f.averages.totalTime ≤ x.averages.totalTime)
        ∧ (∀ x ∈ l₂, f.averages.totalTime < x.averages.totalTime))
    ∧ (∀ (results : List BenchmarkResult) (m : BenchmarkResult),
      2 ≤ (successfulResults results).length →
      mostConsistentOf (successfulResults results) = some m →
      ∃ l₁ l₂, successfulResults results = l₁ ++ m :: l₂
        ∧ (∀ x ∈ l₁, m.statistics.standardDeviation.totalTime
            ≤ x.statistics.standardDeviation.totalTime)
        ∧ (∀ x ∈ l₂, m.statistics.standardDeviation.totalTime
            < x.statistics.standardDeviation.totalTime))
    ∧ fastestOf (successfulResults
        [⟨"A", [], ⟨0, 0, 200⟩, ⟨⟨0, 0, 0⟩, ⟨0, 0, 0⟩, ⟨0, 0, 0⟩⟩, 1, 1, []⟩,
         ⟨"B", [], ⟨0, 0, 150⟩, ⟨⟨0, 0, 0⟩, ⟨0, 0, 0⟩, ⟨0, 0, 0⟩⟩, 1, 1, []⟩])
      = some ⟨"B", [], ⟨0, 0, 150⟩, ⟨⟨0, 0, 0⟩, ⟨0, 0, 0⟩, ⟨0, 0, 0⟩⟩, 1, 1, []⟩ := by
  refine ⟨?_, ?_, rfl⟩
  · intro results f _ hf
    rcases hl : successfulResults results with _ | ⟨x, xs⟩
    · rw [hl] at hf; simp [fastestOf] at hf
    · rw [hl] at hf
      simp only [fastestOf, Option.some.injEq] at hf
      subst hf
      obtain ⟨l₁, l₂, heq, h₁, h₂⟩ := foldl_minBy_split
        (fun r : BenchmarkResult => r.averages.totalTime)
        (fun a b => if a.averages.totalTime < b.averages.totalTime then a else b)
        (fun p q => rfl) xs x
      exact ⟨l₁, l₂, heq, h₁, h₂⟩
  · intro results m _ hm
    rcases hl : successfulResults results with _ | ⟨x, xs⟩
    · rw [hl] at hm; simp [mostConsistentOf] at hm
    · rw [hl] at hm
      simp only [mostConsistentOf, Option.some.injEq] at hm
      subst hm
      obtain ⟨l₁, l₂, heq, h₁, h₂⟩ := foldl_minBy_split
        (fun r : BenchmarkResult => r.statistics.standardDeviation.totalTime)
        (fun a b => if a.statistics.standardDeviation.totalTime
            < b.statistics.standardDeviation.totalTime then a else b)
        (fun p q => rfl) xs x
      exact ⟨l₁, l₂, heq, h₁, h₂⟩

/-- Witness for C7 at the concrete 200-versus-150 scenario. -/
theorem spec_C7_narrative_designation_witness :
    ∃ l₁ l₂, successfulResults
        [⟨"A", [], ⟨0, 0, 200⟩, ⟨⟨0, 0, 0⟩, ⟨0, 0, 0⟩, ⟨0, 0, 0⟩⟩, 1, 1, []⟩,
         ⟨"B", [], ⟨0, 0, 150⟩, ⟨⟨0, 0, 0⟩, ⟨0, 0, 0⟩, ⟨0, 0, 0⟩⟩, 1, 1, []⟩]
      = l₁ ++ (⟨"B", [], ⟨0, 0, 150⟩, ⟨⟨0, 0, 0⟩, ⟨0, 0, 0⟩, ⟨0, 0, 0⟩⟩, 1, 1, []⟩
          : BenchmarkResult) :: l₂
      ∧ (∀ x ∈ l₁, (150 : ℚ) ≤ x.averages.totalTime)
      ∧ (∀ x ∈ l₂, (150 : ℚ) < x.averages.totalTime) :=
  spec_C7_narrative_designation.1
    [⟨"A", [], ⟨0, 0, 200⟩, ⟨⟨0, 0, 0⟩, ⟨0, 0, 0⟩, ⟨0, 0, 0⟩⟩, 1, 1, []⟩,
     ⟨"B", [], ⟨0, 0, 150⟩, ⟨⟨0, 0, 0⟩, ⟨0, 0, 0⟩, ⟨0, 0, 0⟩⟩, 1, 1, []⟩]
    ⟨"B", [], ⟨0, 0, 150⟩, ⟨⟨0, 0, 0⟩, ⟨0, 0, 0⟩, ⟨0, 0, 0⟩⟩, 1, 1, []⟩
    (by decide) rfl

/-- Counterexample for C7 as stated: on a tie in average total time the
reduce designates the LATER provider, not the first encountered — the step
`a < b ? a : b` replaces the accumulator whenever it is not strictly
smaller. -/
theorem spec_C7_narrative_designation_counterexample :
    successfulResults
        [⟨"A", [], ⟨0, 0, 100⟩, ⟨⟨0, 0, 0⟩, ⟨0, 0, 0⟩, ⟨0, 0, 0⟩⟩, 1, 1, []⟩,
         ⟨"B", [], ⟨0, 0, 100⟩, ⟨⟨0, 0, 0⟩, ⟨0, 0, 0⟩, ⟨0, 0, 0⟩⟩, 1, 1, []⟩]
      = [⟨"A", [], ⟨0, 0, 100⟩, ⟨⟨0, 0, 0⟩, ⟨0, 0, 0⟩, ⟨0, 0, 0⟩⟩, 1, 1, []⟩,
         ⟨"B", [], ⟨0, 0, 100⟩, ⟨⟨0, 0, 0⟩, ⟨0, 0, 0⟩, ⟨0, 0, 0⟩⟩, 1, 1, []⟩]
    ∧ (⟨"A", [], ⟨0, 0, 100⟩, ⟨⟨0, 0, 0⟩, ⟨0, 0, 0⟩, ⟨0, 0, 0⟩⟩, 1, 1, []⟩
        : BenchmarkResult).averages.totalTime
      = (⟨"B", [], ⟨0, 0, 100⟩, ⟨⟨0, 0, 0⟩, ⟨0, 0, 0⟩, ⟨0, 0, 0⟩⟩, 1, 1, []⟩
        : BenchmarkResult).averages.totalTime
    ∧ fastestOf (successfulResults
        [⟨"A", [], ⟨0, 0, 100⟩, ⟨⟨0, 0, 0⟩, ⟨0, 0, 0⟩, ⟨0, 0, 0⟩⟩, 1, 1, []⟩,
         ⟨"B", [], ⟨0, 0, 100⟩, ⟨⟨0, 0, 0⟩, ⟨0, 0, 0⟩, ⟨0, 0, 0⟩⟩, 1, 1, []⟩])
      = some ⟨"B", [], ⟨0, 0, 100⟩, ⟨⟨0, 0, 0⟩, ⟨0, 0, 0⟩, ⟨0, 0, 0⟩⟩, 1, 1, []⟩
    ∧ (⟨"B", [], ⟨0, 0, 100⟩, ⟨⟨0, 0, 0⟩, ⟨0, 0, 0⟩, ⟨0, 0, 0⟩⟩, 1, 1, []⟩
        : BenchmarkResult)
      ≠ ⟨"A", [], ⟨0, 0, 100⟩, ⟨⟨0, 0, 0⟩, ⟨0, 0, 0⟩, ⟨0, 0, 0⟩⟩, 1, 1, []⟩ := by
  refine ⟨rfl, rfl, rfl, ?_⟩
  intro h
  have hname := congrArg BenchmarkResult.name h
  simp at hname

/-- C8 (amended): in every sweep (mixed outcomes allowed), every recorded
run whose sample-source call returned normally (whether its sample reports
success or failure), that did not trigger a fail-fast break, and that is
not the last configured run is — when the configured delay is positive —
immediately followed in the suspension trace by the inter-run delay and
then by the next iteration's sample await; while every recorded run whose
sample-source call threw and that is followed by a next iteration
(`failFast` off, not last) is immediately followed by the next iteration's
sample await, with NO delay suspension in between. -/
theorem spec_C8_delay_amended :
    (∀ (cfg : BenchmarkConfig) (benchmarkFn : Nat → Outcome)
        (providerName : String) (clock : Nat → ℚ)
        (r : BenchmarkRun) (s : SingleRunResult),
      r ∈ (BenchmarkRunner.runMultiple cfg benchmarkFn providerName clock).result.runs →
      benchmarkFn r.runNumber = Outcome.ok s →
      ¬(s.success = false ∧ cfg.failFast = true) →
      (r.runNumber : Int) < cfg.runCount →
      0 < cfg.delayBetweenRuns →
      ∃ es₁ es₂,
        (BenchmarkRunner.runMultiple cfg benchmarkFn providerName clock).events
          = es₁ ++ RunnerEvent.sampleAwait r.runNumber
              :: RunnerEvent.delayAwait cfg.delayBetweenRuns
              :: RunnerEvent.sampleAwait (r.runNumber + 1) :: es₂)
    ∧ (∀ (cfg : BenchmarkConfig) (benchmarkFn : Nat → Outcome)
        (providerName : String) (clock : Nat → ℚ)
        (r : BenchmarkRun) (msg : String),
      r ∈ (BenchmarkRunner.runMultiple cfg benchmarkFn providerName clock).result.runs →
      benchmarkFn r.runNumber = Outcome.thrown msg →
      cfg.failFast = false →
      (r.runNumber : Int) < cfg.runCount →
      ∃ es₁ es₂,
        (BenchmarkRunner.runMultiple cfg benchmarkFn providerName clock).events
          = es₁ ++ RunnerEvent.sampleAwait r.runNumber
              :: RunnerEvent.sampleAwait (r.runNumber + 1) :: es₂) := by
  constructor
  · intro cfg benchmarkFn providerName clock r s hr hs hnobrk hlt hd
    have hres : (BenchmarkRunner.runMultiple cfg benchmarkFn providerName clock).result
        = BenchmarkRunner.calculateResult providerName
            (BenchmarkRunner.runFrom cfg.runCount cfg.delayBetweenRuns cfg.failFast
              benchmarkFn clock cfg.runCount.toNat 1).runs
            (BenchmarkRunner.runFrom cfg.runCount cfg.delayBetweenRuns cfg.failFast
              benchmarkFn clock cfg.runCount.toNat 1).failedRuns := rfl
    rw [hres, calculateResult_runs] at hr
    show ∃ es₁ es₂, (BenchmarkRunner.runFrom cfg.runCount cfg.delayBetweenRuns
        cfg.failFast benchmarkFn clock cfg.runCount.toNat 1).events
      = es₁ ++ RunnerEvent.sampleAwait r.runNumber
          :: RunnerEvent.delayAwait cfg.delayBetweenRuns
          :: RunnerEvent.sampleAwait (r.runNumber + 1) :: es₂
    by_cases hrc : 0 ≤ cfg.runCount
    · exact runFrom_delay_after_ok cfg.runCount cfg.delayBetweenRuns cfg.failFast
        benchmarkFn clock hd cfg.runCount.toNat 1 (by omega) r hr s hs hnobrk hlt
    · exfalso
      have h0 : cfg.runCount.toNat = 0 := by omega
      rw [h0] at hr
      simp [BenchmarkRunner.runFrom] at hr
  · intro cfg benchmarkFn providerName clock r msg hr hs hff hlt
    have hres : (BenchmarkRunner.runMultiple cfg benchmarkFn providerName clock).result
        = BenchmarkRunner.calculateResult providerName
            (BenchmarkRunner.runFrom cfg.runCount cfg.delayBetweenRuns cfg.failFast
              benchmarkFn clock cfg.runCount.toNat 1).runs
            (BenchmarkRunner.runFrom cfg.runCount cfg.delayBetweenRuns cfg.failFast
              benchmarkFn clock cfg.runCount.toNat 1).failedRuns := rfl
    rw [hres, calculateResult_runs] at hr
    show ∃ es₁ es₂, (BenchmarkRunner.runFrom cfg.runCount cfg.delayBetweenRuns
        cfg.failFast benchmarkFn clock cfg.runCount.toNat 1).events
      = es₁ ++ RunnerEvent.sampleAwait r.runNumber
          :: RunnerEvent.sampleAwait (r.runNumber + 1) :: es₂
    rw [hff] at hr ⊢
    by_cases hrc : 0 ≤ cfg.runCount
    · exact runFrom_no_delay_after_thrown cfg.runCount cfg.delayBetweenRuns
        benchmarkFn clock cfg.runCount.toNat 1 (by omega) r hr msg hs hlt
    · exfalso
      have h0 : cfg.runCount.toNat = 0 := by omega
      rw [h0] at hr
      simp [BenchmarkRunner.runFrom] at hr

/-- Witness for C8's amended statement at a concrete mixed sweep
(run 1 ok and successful, run 2 thrown, run 3 ok but failed, run 4 ok):
runs 1 and 3 are each followed by the delay and then the next sample
await; thrown run 2 is followed immediately by run 3's sample await. -/
theorem spec_C8_delay_amended_witness :
    (∃ es₁ es₂,
      (BenchmarkRunner.runMultiple ⟨4, 5, false, false, true⟩
        (fun i => if i = 2 then Outcome.thrown "boom"
                  else if i = 3 then Outcome.ok ⟨1, 1, 2, false, some "slow"⟩
                  else Outcome.ok ⟨1, 1, 2, true, none⟩) "P" (fun _ => 0)).events
        = es₁ ++ RunnerEvent.sampleAwait 1 :: RunnerEvent.delayAwait 5
            :: RunnerEvent.sampleAwait 2 :: es₂)
    ∧ (∃ es₁ es₂,
      (BenchmarkRunner.runMultiple ⟨4, 5, false, false, true⟩
        (fun i => if i = 2 then Outcome.thrown "boom"
                  else if i = 3 then Outcome.ok ⟨1, 1, 2, false, some "slow"⟩
                  else Outcome.ok ⟨1, 1, 2, true, none⟩) "P" (fun _ => 0)).events
        = es₁ ++ RunnerEvent.sampleAwait 2 :: RunnerEvent.sampleAwait 3 :: es₂)
    ∧ (∃ es₁ es₂,
      (BenchmarkRunner.runMultiple ⟨4, 5, false, false, true⟩
        (fun i => if i = 2 then Outcome.thrown "boom"
                  else if i = 3 then Outcome.ok ⟨1, 1, 2, false, some "slow"⟩
                  else Outcome.ok ⟨1, 1, 2, true, none⟩) "P" (fun _ => 0)).events
        = es₁ ++ RunnerEvent.sampleAwait 3 :: RunnerEvent.delayAwait 5
            :: RunnerEvent.sampleAwait 4 :: es₂) := by
  refine ⟨?_, ?_, ?_⟩
  · exact spec_C8_delay_amended.1 ⟨4, 5, false, false, true⟩
      (fun i => if i = 2 then Outcome.thrown "boom"
                else if i = 3 then Outcome.ok ⟨1, 1, 2, false, some "slow"⟩
                else Outcome.ok ⟨1, 1, 2, true, none⟩) "P" (fun _ => 0)
      ⟨1, 1, 1, 2, true, none, 0⟩ ⟨1, 1, 2, true, none⟩
      (by decide) (by decide) (by decide) (by decide) (by decide)
  · exact spec_C8_delay_amended.2 ⟨4, 5, false, false, true⟩
      (fun i => if i = 2 then Outcome.thrown "boom"
                else if i = 3 then Outcome.ok ⟨1, 1, 2, false, some "slow"⟩
                else Outcome.ok ⟨1, 1, 2, true, none⟩) "P" (fun _ => 0)
      ⟨2, 0, 0, 0, false, some "boom", 0⟩ "boom"
      (by decide) (by decide) rfl (by decide)
  · exact spec_C8_delay_amended.1 ⟨4, 5, false, false, true⟩
      (fun i => if i = 2 then Outcome.thrown "boom"
                else if i = 3 then Outcome.ok ⟨1, 1, 2, false, some "slow"⟩
                else Outcome.ok ⟨1, 1, 2, true, none⟩) "P" (fun _ => 0)
      ⟨3, 1, 1, 2, false, some "slow", 0⟩ ⟨1, 1, 2, false, some "slow"⟩
      (by decide) (by decide) (by decide) (by decide) (by decide)

/-- Counterexample for C8 as stated: a two-run sweep with a positive
configured delay whose sample source always throws performs both
iterations but never suspends for the inter-run delay — the claim demands
a delay after run 1 here "regardless of whether the run ... was
synthesized because sampleFn() threw". -/
theorem spec_C8_delay_counterexample :
    (BenchmarkRunner.runMultiple ⟨2, 5, false, false, true⟩
      (fun _ => Outcome.thrown "boom") "P" (fun _ => 0)).events
      = [RunnerEvent.sampleAwait 1, RunnerEvent.sampleAwait 2]
    ∧ (0 : ℚ) < (⟨2, 5, false, false, true⟩ : BenchmarkConfig).delayBetweenRuns
    ∧ (BenchmarkRunner.runMultiple ⟨2, 5, false, false, true⟩
      (fun _ => Outcome.thrown "boom") "P" (fun _ => 0)).result.totalRuns = 2
    ∧ RunnerEvent.delayAwait 5
      ∉ (BenchmarkRunner.runMultiple ⟨2, 5, false, false, true⟩
          (fun _ => Outcome.thrown "boom") "P" (fun _ => 0)).events :=
  ⟨rfl, by decide, by decide, by decide⟩
